import Mathlib

/-!
Shallow embedding of the TableTap order-aggregation core
(tabletapapp/views.py: add_order_item, view_cart, view_order;
tabletapapp/models.py: Order, Order_Item; tabletapapp/forms.py: OrderItemForm).

The durable store is modelled as insertion-ordered lists of records, matching
the auto-increment row ids of the deployed database.  Monetary values
(DecimalField with two decimal places) are modelled as integer cents; the
Quantity field of Order_Item is a plain IntegerField and is modelled as Int.
Each Django view is a pure function from the store, the session binding and
the request to an outcome: the new store, the new session binding and an
HTTP-level result (redirect on a successful mutation, render of a template, or
crash for an unhandled exception such as DoesNotExist, UnboundLocalError,
AttributeError or IndexError).
-/

namespace TableTap

/-- One Menu_Item row: id, name and unit price in cents (models.py Menu_Item). -/
structure MenuItem where
  id : Nat
  itemName : String
  price : Int
  deriving Repr, DecidableEq

/-- One Menu row: id and owning restaurant (models.py Menu). -/
structure Menu where
  id : Nat
  restaurantId : Nat
  deriving Repr, DecidableEq

/-- One Table row: id and owning restaurant (models.py Table). -/
structure Table where
  id : Nat
  restaurantId : Nat
  deriving Repr, DecidableEq

/-- One Order row (models.py Order).  createdAt is a creation counter standing
for the auto_now_add timestamp. -/
structure Order where
  id : Nat
  tableId : Option Nat
  restaurantId : Nat
  createdAt : Nat
  completedStatus : Bool
  customerSubmitted : Bool
  totalPrice : Int
  deriving Repr, DecidableEq

/-- One Order_Item row (models.py Order_Item): the line item joining an order
to a menu item with a quantity. -/
structure OrderItem where
  orderId : Nat
  itemId : Nat
  quantity : Int
  deriving Repr, DecidableEq

/-- One Owner together with the ids of the restaurants reachable through the
Restaurant_Owner links (owner.Restaurants.all()). -/
structure Owner where
  id : Nat
  restaurants : List Nat
  deriving Repr, DecidableEq

/-- The durable store: catalog records plus the mutable orders and line
items.  Lists are kept in insertion order; nextOrderId is the auto-increment
counter for Order rows. -/
structure DB where
  restaurants : List Nat
  menus : List Menu
  menuItems : List MenuItem
  tables : List Table
  owners : List Owner
  orders : List Order
  orderItems : List OrderItem
  nextOrderId : Nat
  deriving Repr, DecidableEq

/-- The HTTP-level outcome of a view: a redirect (successful mutation), a
rendered template, or a crash (an unhandled exception). -/
inductive HttpResult where
  | redirect
  | render
  | crash
  deriving Repr, DecidableEq

/-- Outcome of add_order_item: the new store, the session order binding
(request.session of order_id) and the HTTP result. -/
structure Outcome where
  db : DB
  sessionOrderId : Option Nat
  result : HttpResult
  deriving Repr, DecidableEq

/-- Menu_Item.objects.get(id=item_id), as an Option (none = DoesNotExist). -/
def findMenuItem (db : DB) (itemId : Nat) : Option MenuItem :=
  db.menuItems.find? (fun it => it.id == itemId)

/-- Menu.objects.get(id=menu_id). -/
def findMenu (db : DB) (menuId : Nat) : Option Menu :=
  db.menus.find? (fun m => m.id == menuId)

/-- Table.objects.get(id=table_id). -/
def findTable (db : DB) (tableId : Nat) : Option Table :=
  db.tables.find? (fun t => t.id == tableId)

/-- Order.objects.get(id=order_id). -/
def findOrder (db : DB) (orderId : Nat) : Option Order :=
  db.orders.find? (fun o => o.id == orderId)

/-- Order_Item.objects.get(Order_ID=order, Item_ID=item), unique by the
unique_together constraint on (Order_ID, Item_ID). -/
def findOrderItem (db : DB) (orderId itemId : Nat) : Option OrderItem :=
  db.orderItems.find? (fun r => r.orderId == orderId && r.itemId == itemId)

/-- Owner.objects.get(user=request.user). -/
def findOwner (db : DB) (ownerId : Nat) : Option Owner :=
  db.owners.find? (fun w => w.id == ownerId)

/-- order.save(): write back an Order row under its primary key. -/
def saveOrder (db : DB) (o : Order) : DB :=
  { db with orders := db.orders.map (fun x => if x.id == o.id then o else x) }

/-- order_item.save(): write back an Order_Item row under its unique
(Order_ID, Item_ID) key. -/
def saveOrderItem (db : DB) (r : OrderItem) : DB :=
  { db with orderItems :=
      db.orderItems.map (fun x =>
        if x.orderId == r.orderId && x.itemId == r.itemId then r else x) }

/-- Embedding of add_order_item (views.py lines 436 to 476).  The request
carries the method (is_post), the session binding, and the parsed Quantity
field of OrderItemForm: some q when the input is an integer (the form is
valid; Quantity is a plain IntegerField, so any sign is accepted), none when
it is not an integer (form invalid, the form is re-rendered).  A session with
a bound order id reuses that order; otherwise a fresh Order is created (even
on a GET) and bound to the session.  On a valid POST, an existing
(order, item) row has its quantity incremented and the running total is
increased by the post-increment quantity times the unit price; a fresh row is
appended and the total increased by quantity times unit price. -/
def add_order_item (db : DB) (session : Option Nat) (table_id menu_id item_id : Nat)
    (is_post : Bool) (quantity : Option Int) : Outcome :=
  match findMenuItem db item_id with
  | none => ⟨db, session, .crash⟩
  | some item =>
    match findMenu db menu_id with
    | none => ⟨db, session, .crash⟩
    | some menu =>
      match (match session with
             | some oid => (findOrder db oid).map (fun o => (db, some oid, o))
             | none =>
               (findTable db table_id).map (fun (t : Table) =>
                 let o : Order :=
                   { id := db.nextOrderId, tableId := some t.id,
                     restaurantId := menu.restaurantId,
                     createdAt := db.nextOrderId,
                     completedStatus := false, customerSubmitted := false,
                     totalPrice := 0 }
                 ({ db with orders := db.orders ++ [o],
                            nextOrderId := db.nextOrderId + 1 },
                  some o.id, o))) with
      | none => ⟨db, session, .crash⟩
      | some (db1, sess1, order) =>
        if is_post then
          match quantity with
          | none => ⟨db1, sess1, .render⟩
          | some q =>
            match findOrderItem db1 order.id item.id with
            | some existed =>
              let existed2 := { existed with quantity := existed.quantity + q }
              let db2 := saveOrderItem db1 existed2
              let order2 :=
                { order with totalPrice :=
                    order.totalPrice + existed2.quantity * item.price }
              ⟨saveOrder db2 order2, sess1, .redirect⟩
            | none =>
              let row : OrderItem :=
                { orderId := order.id, itemId := item.id, quantity := q }
              let db2 := { db1 with orderItems := db1.orderItems ++ [row] }
              let order2 :=
                { order with totalPrice := order.totalPrice + q * item.price }
              ⟨saveOrder db2 order2, sess1, .redirect⟩
        else ⟨db1, sess1, .render⟩

/-- One displayed cart line of view_cart and view_order: item name, quantity
and quantity times the current catalog price. -/
structure CartLine where
  itemName : String
  quantity : Int
  price : Int
  deriving Repr, DecidableEq

/-- The items loop of view_cart and view_order: each Order_Item row of the
order joined with its live Menu_Item; none when a referenced item is missing
(the foreign-key dereference would raise). -/
def cartLines (db : DB) (orderId : Nat) : Option (List CartLine) :=
  (db.orderItems.filter (fun r => r.orderId == orderId)).mapM (fun r =>
    (findMenuItem db r.itemId).map (fun it =>
      { itemName := it.itemName, quantity := r.quantity,
        price := it.price * r.quantity }))

/-- Outcome of view_cart: new store, HTTP result, displayed lines and
displayed running total. -/
structure CartOutcome where
  db : DB
  result : HttpResult
  items : List CartLine
  totalPrice : Int
  deriving Repr, DecidableEq

/-- Embedding of view_cart (views.py lines 479 to 516).  When the session has
a bound order id the order is fetched and the cart lines computed; a POST then
sets Customer_Submitted and redirects.  When the session has no bound order,
the local variable holding the order is never assigned, and every path that
follows dereferences it (the POST at order.Customer_Submitted, the GET when
the context is built), so the view crashes with an unhandled exception; on the
GET path with menu_id 0 the crash may instead come first from the
Restaurant.objects.get call or from indexing an empty menus queryset, still a
crash.  The store is never mutated on those paths. -/
def view_cart (db : DB) (session : Option Nat) (table_id restaurant_id menu_id : Nat)
    (is_post : Bool) : CartOutcome :=
  match session with
  | some oid =>
    match findOrder db oid with
    | none => ⟨db, .crash, [], 0⟩
    | some order =>
      match cartLines db oid with
      | none => ⟨db, .crash, [], 0⟩
      | some lines =>
        if is_post then
          ⟨saveOrder db { order with customerSubmitted := true }, .redirect,
           lines, order.totalPrice⟩
        else
          if menu_id == 0 then
            if db.restaurants.contains restaurant_id then
              match db.menus.filter (fun m => m.restaurantId == restaurant_id) with
              | [] => ⟨db, .crash, [], 0⟩
              | _ :: _ => ⟨db, .render, lines, order.totalPrice⟩
            else ⟨db, .crash, [], 0⟩
          else ⟨db, .render, lines, order.totalPrice⟩
  | none => ⟨db, .crash, [], 0⟩

/-- The pending-orders queryset of view_order (views.py line 529):
Order.objects.filter(Restaurant_ID__in=restaurants, Customer_Submitted=True,
Completed_Status=False), in store order. -/
def pending_orders (db : DB) (rs : List Nat) : List Order :=
  db.orders.filter (fun o =>
    rs.contains o.restaurantId && o.customerSubmitted && !o.completedStatus)

/-- Outcome of view_order: the new store and the HTTP result. -/
structure OrderViewOutcome where
  db : DB
  result : HttpResult
  deriving Repr, DecidableEq

/-- Embedding of view_order (views.py lines 519 to 553).  The pending orders
of the restaurants of the logged-in owner are listed; when that list is
nonempty, order_id 0 is replaced by the id of its first element, and the named
order is fetched by id alone, with no restriction to the pending list or to
the restaurants of the owner.  A POST then sets Completed_Status on that order
unconditionally and redirects.  When the pending list is empty, the local
order variable holds an empty list, so a POST crashes with an AttributeError
while a GET renders an empty console. -/
def view_order (db : DB) (owner_id : Nat) (order_id : Nat) (is_post : Bool) :
    OrderViewOutcome :=
  match findOwner db owner_id with
  | none => ⟨db, .crash⟩
  | some owner =>
    match pending_orders db owner.restaurants with
    | [] => if is_post then ⟨db, .crash⟩ else ⟨db, .render⟩
    | first :: _ =>
      let oid := if order_id == 0 then first.id else order_id
      match findOrder db oid with
      | none => ⟨db, .crash⟩
      | some order =>
        match cartLines db order.id with
        | none => ⟨db, .crash⟩
        | some _ =>
          if is_post then
            ⟨saveOrder db { order with completedStatus := true }, .redirect⟩
          else ⟨db, .render⟩

/-- One add_item request: url arguments and the requested quantity. -/
structure AddCall where
  tableId : Nat
  menuId : Nat
  itemId : Nat
  qty : Int
  deriving Repr, DecidableEq

/-- A sequence of valid add_item POSTs threaded through the store and the
session binding. -/
def applyAdds (db : DB) (session : Option Nat) : List AddCall → DB × Option Nat
  | [] => (db, session)
  | c :: rest =>
    let out := add_order_item db session c.tableId c.menuId c.itemId true (some c.qty)
    applyAdds out.db out.sessionOrderId rest

/-- The Order_Item rows of a given (order, item) pair. -/
def rowsFor (l : List OrderItem) (oid iid : Nat) : List OrderItem :=
  l.filter (fun r => r.orderId == oid && r.itemId == iid)

/-- Total quantity recorded for a given (order, item) pair. -/
def qtyFor (l : List OrderItem) (oid iid : Nat) : Int :=
  ((rowsFor l oid iid).map (fun r => r.quantity)).sum

/-- The contribution of one line item to the order total at live catalog
prices: quantity times unit price (0 for a dangling item reference). -/
def lineTotal (db : DB) (r : OrderItem) : Int :=
  match findMenuItem db r.itemId with
  | some it => r.quantity * it.price
  | none => 0

/-- Sum over the line items of an order of unit price times quantity. -/
def lineSum (db : DB) (orderId : Nat) : Int :=
  ((db.orderItems.filter (fun r => r.orderId == orderId)).map (lineTotal db)).sum

/-- The spec invariant: a completed order is a submitted order. -/
def CompletedImpliesSubmitted (db : DB) : Prop :=
  ∀ o ∈ db.orders, o.completedStatus = true → o.customerSubmitted = true

/-- Catalog-only store for the repeated-add scenario of spec section 8:
restaurant 1, menu 1, item 1 priced 500 cents, table 1, no orders yet. -/
def dbC1 : DB :=
  { restaurants := [1], menus := [⟨1, 1⟩], menuItems := [⟨1, "A", 500⟩],
    tables := [⟨1, 1⟩], owners := [], orders := [], orderItems := [],
    nextOrderId := 1 }

/-- First add of the scenario: item 1, quantity 2, fresh session. -/
def addC1a : Outcome := add_order_item dbC1 none 1 1 1 true (some 2)

/-- Second add of the scenario: item 1 again, quantity 1, same session. -/
def addC1b : Outcome :=
  add_order_item addC1a.db addC1a.sessionOrderId 1 1 1 true (some 1)

/-- Store with an already submitted order 1 holding one line of item 1. -/
def dbC6 : DB :=
  { restaurants := [1], menus := [⟨1, 1⟩], menuItems := [⟨1, "A", 500⟩],
    tables := [⟨1, 1⟩], owners := [],
    orders := [⟨1, some 1, 1, 1, false, true, 500⟩],
    orderItems := [⟨1, 1, 1⟩], nextOrderId := 2 }

/-- Adding to the submitted order of dbC6: item 1, quantity 1. -/
def addC6 : Outcome := add_order_item dbC6 (some 1) 1 1 1 true (some 1)

/-- Store for owner 1 of restaurant 1 with a pending order 1 (submitted) and
an open order 2 (not submitted). -/
def dbC4 : DB :=
  { restaurants := [1], menus := [⟨1, 1⟩], menuItems := [⟨1, "A", 500⟩],
    tables := [⟨1, 1⟩], owners := [⟨1, [1]⟩],
    orders := [⟨1, some 1, 1, 1, false, true, 500⟩,
               ⟨2, some 1, 1, 2, false, false, 0⟩],
    orderItems := [], nextOrderId := 3 }

/-- Store like dbC4 but where order 2 is already submitted and completed. -/
def dbC4w : DB :=
  { restaurants := [1], menus := [⟨1, 1⟩], menuItems := [⟨1, "A", 500⟩],
    tables := [⟨1, 1⟩], owners := [⟨1, [1]⟩],
    orders := [⟨1, some 1, 1, 1, false, true, 500⟩,
               ⟨2, some 1, 1, 2, true, true, 700⟩],
    orderItems := [], nextOrderId := 3 }

/-- Catalog-only store with owner 1 of restaurant 1, used to replay a full
operation sequence. -/
def dbC5 : DB :=
  { restaurants := [1], menus := [⟨1, 1⟩], menuItems := [⟨1, "A", 500⟩],
    tables := [⟨1, 1⟩], owners := [⟨1, [1]⟩], orders := [], orderItems := [],
    nextOrderId := 1 }

/-- Customer A adds an item: order 1 is created and bound to session A. -/
def addC5a : Outcome := add_order_item dbC5 none 1 1 1 true (some 1)

/-- Customer A submits the cart: order 1 becomes SUBMITTED. -/
def subC5 : CartOutcome := view_cart addC5a.db addC5a.sessionOrderId 1 1 1 true

/-- Customer B (fresh session) adds an item: order 2 is created, still OPEN. -/
def addC5b : Outcome := add_order_item subC5.db none 1 1 1 true (some 1)

/-- Owner 1 invokes the completion POST naming the open order 2 while order 1
is pending. -/
def compC5 : OrderViewOutcome := view_order addC5b.db 1 2 true

/-- Store for the invariant-preservation witness: one pending order. -/
def dbC5w : DB :=
  { restaurants := [1], menus := [⟨1, 1⟩], menuItems := [⟨1, "A", 500⟩],
    tables := [⟨1, 1⟩], owners := [⟨1, [1]⟩],
    orders := [⟨1, some 1, 1, 1, false, true, 500⟩], orderItems := [],
    nextOrderId := 2 }

/-- Store with a bound open order 1 having no line items yet. -/
def dbC9 : DB :=
  { restaurants := [1], menus := [⟨1, 1⟩], menuItems := [⟨1, "A", 500⟩],
    tables := [⟨1, 1⟩], owners := [],
    orders := [⟨1, some 1, 1, 1, false, false, 0⟩], orderItems := [],
    nextOrderId := 2 }

/-- Adding item 1 with the non-positive quantity -1 to the order of dbC9. -/
def addC9 : Outcome := add_order_item dbC9 (some 1) 1 1 1 true (some (-1))

/-- Store like dbC9, used for the non-integer-quantity witness. -/
def dbC9w : DB :=
  { restaurants := [1], menus := [⟨1, 1⟩], menuItems := [⟨1, "A", 500⟩],
    tables := [⟨1, 1⟩], owners := [],
    orders := [⟨1, some 1, 1, 1, false, false, 0⟩], orderItems := [⟨1, 1, 2⟩],
    nextOrderId := 2 }

/-- Store with a submitted order 1 for the submit-idempotence witness. -/
def dbC7w : DB :=
  { restaurants := [1], menus := [⟨1, 1⟩], menuItems := [⟨1, "A", 500⟩],
    tables := [⟨1, 1⟩], owners := [],
    orders := [⟨1, some 1, 1, 1, false, true, 500⟩],
    orderItems := [⟨1, 1, 1⟩], nextOrderId := 2 }

/-- Store with four orders of mixed states for the pending-list witness:
order 1 pending, order 2 completed, order 3 of a foreign restaurant, order 4
not yet submitted. -/
def dbC8w : DB :=
  { restaurants := [1, 2], menus := [⟨1, 1⟩], menuItems := [],
    tables := [], owners := [⟨1, [1]⟩],
    orders := [⟨1, some 1, 1, 1, false, true, 100⟩,
               ⟨2, some 1, 1, 2, true, true, 200⟩,
               ⟨3, some 1, 2, 3, false, true, 300⟩,
               ⟨4, some 1, 1, 4, false, false, 0⟩],
    orderItems := [], nextOrderId := 5 }

/-- Store where owner 1 owns restaurant 1 only, with a pending order 1 there,
while order 3 belongs to the foreign restaurant 2. -/
def dbC10w : DB :=
  { restaurants := [1, 2], menus := [⟨1, 1⟩, ⟨2, 2⟩], menuItems := [⟨1, "A", 500⟩],
    tables := [⟨1, 1⟩, ⟨2, 2⟩], owners := [⟨1, [1]⟩],
    orders := [⟨1, some 1, 1, 1, false, true, 500⟩,
               ⟨3, some 2, 2, 2, false, true, 900⟩],
    orderItems := [], nextOrderId := 4 }

/-- Catalog with two items for the quantity-merging witness. -/
def dbC2w : DB :=
  { restaurants := [1], menus := [⟨1, 1⟩],
    menuItems := [⟨1, "A", 500⟩, ⟨2, "B", 350⟩],
    tables := [⟨1, 1⟩], owners := [], orders := [], orderItems := [],
    nextOrderId := 1 }

/-- First add of the merging witness: item 1, quantity 2. -/
def c0C2w : AddCall := ⟨1, 1, 1, 2⟩

/-- Later adds of the merging witness: item 2 quantity 1, then item 1 again
with quantity 1. -/
def callsC2w : List AddCall := [⟨1, 1, 2, 1⟩, ⟨1, 1, 1, 1⟩]

/-- Technical: find? splits its list around the first hit. -/
theorem find?_split {α : Type} (p : α → Bool) (l : List α) (a : α)
    (h : l.find? p = some a) :
    ∃ l1 l2, l = l1 ++ a :: l2 ∧ (∀ x ∈ l1, p x = false) ∧ p a = true := by
  induction l with
  | nil => simp at h
  | cons b l ih =>
    cases hb : p b with
    | true =>
      rw [List.find?_cons_of_pos _ hb] at h
      injection h with h
      subst h
      exact ⟨[], l, by simp, by simp, hb⟩
    | false =>
      rw [List.find?_cons_of_neg _ (by simp [hb])] at h
      obtain ⟨l1, l2, rfl, h1, h2⟩ := ih h
      refine ⟨b :: l1, l2, by simp, ?_, h2⟩
      intro x hx
      rcases List.mem_cons.mp hx with rfl | hx
      · exact hb
      · exact h1 x hx

/-- Technical: writing back a row under its primary key leaves find? pointed
at the written row. -/
theorem find?_writeBack (l : List Order) (oid : Nat) (o o' : Order)
    (hfind : l.find? (fun x => x.id == oid) = some o) (hid : o'.id = oid) :
    (l.map (fun x => if x.id == o'.id then o' else x)).find?
        (fun x => x.id == oid) = some o' := by
  induction l with
  | nil => simp at hfind
  | cons a l ih =>
    cases ha : (a.id == oid) with
    | true =>
      have ha' : a.id = oid := by simpa using ha
      have hrepl : (if a.id == o'.id then o' else a) = o' := by simp [ha', hid]
      simp only [List.map_cons, hrepl]
      exact List.find?_cons_of_pos _ (by simp [hid])
    | false =>
      have ha' : a.id ≠ oid := by simpa using ha
      rw [List.find?_cons_of_neg _ (by simp [ha'])] at hfind
      have hrepl : (if a.id == o'.id then o' else a) = a := by simp [hid, ha']
      simp only [List.map_cons, hrepl]
      rw [List.find?_cons_of_neg _ (by simp [ha'])]
      exact ih hfind

/-- Technical: rowsFor distributes over append. -/
theorem rowsFor_append (l1 l2 : List OrderItem) (oid iid : Nat) :
    rowsFor (l1 ++ l2) oid iid = rowsFor l1 oid iid ++ rowsFor l2 oid iid :=
  List.filter_append l1 l2

/-- Technical: rowsFor on a cons keeps the head exactly when it carries the
key. -/
theorem rowsFor_cons (r : OrderItem) (l : List OrderItem) (oid iid : Nat) :
    rowsFor (r :: l) oid iid =
      if (r.orderId == oid && r.itemId == iid) = true then r :: rowsFor l oid iid
      else rowsFor l oid iid := by
  by_cases h : (r.orderId == oid && r.itemId == iid) = true <;>
    simp [rowsFor, List.filter_cons, h]

/-- Technical: a list whose rows all belong to other orders has no rows for
this order. -/
theorem rowsFor_eq_nil (l : List OrderItem) (oid iid : Nat)
    (h : ∀ r ∈ l, r.orderId ≠ oid) : rowsFor l oid iid = [] := by
  refine List.filter_eq_nil_iff.mpr ?_
  intro r hr
  simp [h r hr]

/-- Technical: mapping a keyed replacement over a list with no row of that
key leaves the list unchanged. -/
theorem map_keep_of_rowsFor_nil (l : List OrderItem) (oid i : Nat)
    (r' : OrderItem) (h : rowsFor l oid i = []) :
    l.map (fun x => if x.orderId == oid && x.itemId == i then r' else x) = l := by
  have h' : ∀ x ∈ l, ¬((fun x : OrderItem => x.orderId == oid && x.itemId == i) x = true) :=
    List.filter_eq_nil_iff.mp h
  have hcong : ∀ x ∈ l,
      (if x.orderId == oid && x.itemId == i then r' else x) = x := by
    intro x hx
    simp only [if_neg (h' x hx)]
  simpa using List.map_congr_left hcong

/-- Technical: updating the unique row of one (order, item) key rewrites that
key to exactly the updated row and leaves every other key of the order
untouched; the old rows of the key were exactly the found row. -/
theorem rowsFor_writeBack (l : List OrderItem) (oid i : Nat) (r r' : OrderItem)
    (hfind : l.find? (fun x => x.orderId == oid && x.itemId == i) = some r)
    (huniq : (rowsFor l oid i).length ≤ 1)
    (hr' : r'.orderId = oid ∧ r'.itemId = i) :
    rowsFor l oid i = [r] ∧
    ∀ iid, rowsFor
        (l.map (fun x => if x.orderId == oid && x.itemId == i then r' else x))
        oid iid
      = if iid = i then [r'] else rowsFor l oid iid := by
  obtain ⟨l1, l2, rfl, h1, h2⟩ := find?_split _ l r hfind
  have hkey : r.orderId = oid ∧ r.itemId = i := by simpa using h2
  have hl1i : rowsFor l1 oid i = [] :=
    List.filter_eq_nil_iff.mpr (fun x hx => by simp [h1 x hx])
  have hl2i : rowsFor l2 oid i = [] := by
    rw [rowsFor_append, hl1i, List.nil_append, rowsFor_cons, if_pos h2,
      List.length_cons] at huniq
    have hz : (rowsFor l2 oid i).length = 0 := by omega
    exact List.length_eq_zero.mp hz
  have hold : rowsFor (l1 ++ r :: l2) oid i = [r] := by
    rw [rowsFor_append, hl1i, List.nil_append, rowsFor_cons, if_pos h2, hl2i]
  have hmap1 : l1.map (fun x => if x.orderId == oid && x.itemId == i then r' else x) = l1 :=
    map_keep_of_rowsFor_nil l1 oid i r' hl1i
  have hmap2 : l2.map (fun x => if x.orderId == oid && x.itemId == i then r' else x) = l2 :=
    map_keep_of_rowsFor_nil l2 oid i r' hl2i
  have hrepl : (if r.orderId == oid && r.itemId == i then r' else r) = r' := by
    simp [h2]
  refine ⟨hold, ?_⟩
  intro iid
  rw [List.map_append, List.map_cons, hmap1, hmap2, hrepl]
  by_cases hii : iid = i
  · rw [if_pos hii, hii]
    rw [rowsFor_append, hl1i, List.nil_append, rowsFor_cons,
      if_pos (by simp [hr'.1, hr'.2]), hl2i]
  · rw [if_neg hii]
    have hkr' : (r'.orderId == oid && r'.itemId == iid) = true → False := by
      intro hc
      have h3 : r'.orderId = oid ∧ r'.itemId = iid := by simpa using hc
      have h4 := hr'.2
      exact hii (by omega)
    have hkr : (r.orderId == oid && r.itemId == iid) = true → False := by
      intro hc
      have h3 : r.orderId = oid ∧ r.itemId = iid := by simpa using hc
      have h4 := hkey.2
      exact hii (by omega)
    rw [rowsFor_append, rowsFor_append, rowsFor_cons, rowsFor_cons,
      if_neg hkr', if_neg hkr]

/-- One valid add_item POST on a session whose bound order exists: the
session stays bound, the call redirects, the catalog is unchanged, the order
still resolves, and among the line items of the bound order exactly the added
item changes: its rows collapse to one row whose quantity grew by the
requested amount. -/
theorem add_step (db : DB) (oid t m i : Nat) (q : Int) (o : Order)
    (item : MenuItem) (menu : Menu)
    (horder : findOrder db oid = some o)
    (hitem : findMenuItem db i = some item)
    (hmenu : findMenu db m = some menu)
    (huniq : (rowsFor db.orderItems oid i).length ≤ 1) :
    (add_order_item db (some oid) t m i true (some q)).sessionOrderId = some oid ∧
    (add_order_item db (some oid) t m i true (some q)).result = .redirect ∧
    (add_order_item db (some oid) t m i true (some q)).db.menuItems = db.menuItems ∧
    (add_order_item db (some oid) t m i true (some q)).db.menus = db.menus ∧
    (∃ o2, findOrder (add_order_item db (some oid) t m i true (some q)).db oid = some o2) ∧
    ∀ iid, rowsFor (add_order_item db (some oid) t m i true (some q)).db.orderItems oid iid
      = if iid = i then [⟨oid, i, qtyFor db.orderItems oid i + q⟩]
        else rowsFor db.orderItems oid iid := by
  have hid : o.id = oid := by simpa using List.find?_some horder
  have hitemid : item.id = i := by simpa using List.find?_some hitem
  unfold add_order_item
  simp only [hitem, hmenu, Option.map_some']
  rw [horder]
  simp only [Option.map_some', if_true, hid, hitemid]
  cases hf : findOrderItem db oid i with
  | some existed =>
    dsimp only
    have hkeyX : existed.orderId = oid ∧ existed.itemId = i := by
      simpa using List.find?_some hf
    have hwb := rowsFor_writeBack db.orderItems oid i existed
      ⟨existed.orderId, existed.itemId, existed.quantity + q⟩
      hf huniq (by simp [hkeyX.1, hkeyX.2])
    have hqty : qtyFor db.orderItems oid i = existed.quantity := by
      simp [qtyFor, hwb.1]
    refine ⟨rfl, rfl, rfl, rfl, ?_, ?_⟩
    · exact ⟨_, find?_writeBack db.orders oid o _ horder rfl⟩
    · intro iid
      have hthis := hwb.2 iid
      show rowsFor (db.orderItems.map _) oid iid = _
      simp only [hkeyX.1, hkeyX.2] at hthis ⊢
      rw [hthis, hqty]
  | none =>
    dsimp only
    have hnil : rowsFor db.orderItems oid i = [] := by
      refine List.filter_eq_nil_iff.mpr ?_
      intro x hx
      exact (List.find?_eq_none.mp hf) x hx
    have hqty : qtyFor db.orderItems oid i = 0 := by simp [qtyFor, hnil]
    refine ⟨rfl, rfl, rfl, rfl, ?_, ?_⟩
    · exact ⟨_, find?_writeBack db.orders oid o _ horder rfl⟩
    · intro iid
      show rowsFor (db.orderItems ++ _) oid iid = _
      rw [rowsFor_append]
      by_cases hii : iid = i
      · rw [if_pos hii, hii, hnil, hqty, List.nil_append, rowsFor_cons,
          if_pos (by simp)]
        simp [rowsFor]
      · rw [if_neg hii, rowsFor_cons, if_neg (by simp; omega),
          show rowsFor [] oid iid = [] from rfl, List.append_nil]

/-- The first valid add_item POST of a fresh session: a new order with id
nextOrderId is created and bound to the session, the call redirects, the
catalog is unchanged, the new order resolves, and the new order carries
exactly one row, for the added item with the requested quantity. -/
theorem add_create (db : DB) (t m i : Nat) (q : Int)
    (item : MenuItem) (menu : Menu) (tb : Table)
    (hitem : findMenuItem db i = some item)
    (hmenu : findMenu db m = some menu)
    (htb : findTable db t = some tb)
    (hfresh_o : ∀ o ∈ db.orders, o.id ≠ db.nextOrderId)
    (hfresh_r : ∀ r ∈ db.orderItems, r.orderId ≠ db.nextOrderId) :
    (add_order_item db none t m i true (some q)).sessionOrderId = some db.nextOrderId ∧
    (add_order_item db none t m i true (some q)).result = .redirect ∧
    (add_order_item db none t m i true (some q)).db.menuItems = db.menuItems ∧
    (add_order_item db none t m i true (some q)).db.menus = db.menus ∧
    (∃ o2, findOrder (add_order_item db none t m i true (some q)).db db.nextOrderId = some o2) ∧
    ∀ iid, rowsFor (add_order_item db none t m i true (some q)).db.orderItems db.nextOrderId iid
      = if iid = i then [⟨db.nextOrderId, i, q⟩] else [] := by
  have hitemid : item.id = i := by simpa using List.find?_some hitem
  have hnone : db.orderItems.find?
      (fun x => x.orderId == db.nextOrderId && x.itemId == i) = none :=
    List.find?_eq_none.mpr (fun x hx => by simp [hfresh_r x hx])
  have hnil : ∀ iid, rowsFor db.orderItems db.nextOrderId iid = [] :=
    fun iid => rowsFor_eq_nil db.orderItems db.nextOrderId iid hfresh_r
  have hfindNew : (db.orders ++
      [({ id := db.nextOrderId, tableId := some tb.id, restaurantId := menu.restaurantId,
          createdAt := db.nextOrderId, completedStatus := false,
          customerSubmitted := false, totalPrice := 0 } : Order)]).find?
        (fun x => x.id == db.nextOrderId)
      = some { id := db.nextOrderId, tableId := some tb.id,
               restaurantId := menu.restaurantId, createdAt := db.nextOrderId,
               completedStatus := false, customerSubmitted := false,
               totalPrice := 0 } := by
    rw [List.find?_append,
      List.find?_eq_none.mpr (fun x hx => by simp [hfresh_o x hx])]
    simp
  unfold add_order_item
  simp only [hitem, hmenu, htb, Option.map_some']
  rw [show findOrderItem
        { db with orders := db.orders ++ [_], nextOrderId := db.nextOrderId + 1 }
        db.nextOrderId item.id
      = db.orderItems.find? (fun x => x.orderId == db.nextOrderId && x.itemId == item.id)
      from rfl]
  rw [hitemid, hnone]
  dsimp only
  refine ⟨rfl, rfl, rfl, rfl, ?_, ?_⟩
  · exact ⟨_, find?_writeBack _ db.nextOrderId _ _ hfindNew rfl⟩
  · intro iid
    show rowsFor (db.orderItems ++ _) db.nextOrderId iid = _
    rw [rowsFor_append, hnil iid, List.nil_append]
    by_cases hii : iid = i
    · rw [if_pos hii, hii, rowsFor_cons, if_pos (by simp)]
      simp [rowsFor]
    · rw [if_neg hii, rowsFor_cons, if_neg (by simp; omega)]
      rfl

/-- Folding valid add_item POSTs over a session with a bound, existing order:
the binding never changes, and per item key the row count rises to one for
every item of the calls while the recorded quantity grows by the per-item sum
of the requested quantities. -/
theorem applyAdds_props (calls : List AddCall) : ∀ (db : DB) (oid : Nat),
    (∃ o, findOrder db oid = some o) →
    (∀ c ∈ calls, (findMenuItem db c.itemId).isSome) →
    (∀ c ∈ calls, (findMenu db c.menuId).isSome) →
    (∀ iid, (rowsFor db.orderItems oid iid).length ≤ 1) →
    (applyAdds db (some oid) calls).2 = some oid ∧
    (∀ iid, (rowsFor (applyAdds db (some oid) calls).1.orderItems oid iid).length
        = if calls.any (fun c => c.itemId == iid) then 1
          else (rowsFor db.orderItems oid iid).length) ∧
    (∀ iid, qtyFor (applyAdds db (some oid) calls).1.orderItems oid iid
        = qtyFor db.orderItems oid iid
          + ((calls.filter (fun c => c.itemId == iid)).map (fun c => c.qty)).sum) := by
  induction calls with
  | nil =>
    intro db oid _ _ _ _
    refine ⟨rfl, ?_, ?_⟩ <;> intro iid <;> simp [applyAdds]
  | cons c rest ih =>
    intro db oid ho hitems hmenus huniq
    obtain ⟨o, horder⟩ := ho
    obtain ⟨it, hit⟩ := Option.isSome_iff_exists.mp (hitems c (List.mem_cons_self c rest))
    obtain ⟨mn, hmn⟩ := Option.isSome_iff_exists.mp (hmenus c (List.mem_cons_self c rest))
    obtain ⟨hsess, hres, hmi, hms, ⟨o2, ho2⟩, hrows⟩ :=
      add_step db oid c.tableId c.menuId c.itemId c.qty o it mn horder hit hmn
        (huniq c.itemId)
    have happ : applyAdds db (some oid) (c :: rest)
        = applyAdds (add_order_item db (some oid) c.tableId c.menuId c.itemId
            true (some c.qty)).db
          (add_order_item db (some oid) c.tableId c.menuId c.itemId
            true (some c.qty)).sessionOrderId rest := rfl
    rw [happ, hsess]
    have hitems' : ∀ x ∈ rest,
        (findMenuItem (add_order_item db (some oid) c.tableId c.menuId c.itemId
          true (some c.qty)).db x.itemId).isSome := by
      intro x hx
      have := hitems x (List.mem_cons_of_mem _ hx)
      simpa [findMenuItem, hmi] using this
    have hmenus' : ∀ x ∈ rest,
        (findMenu (add_order_item db (some oid) c.tableId c.menuId c.itemId
          true (some c.qty)).db x.menuId).isSome := by
      intro x hx
      have := hmenus x (List.mem_cons_of_mem _ hx)
      simpa [findMenu, hms] using this
    have huniq' : ∀ iid,
        (rowsFor (add_order_item db (some oid) c.tableId c.menuId c.itemId
          true (some c.qty)).db.orderItems oid iid).length ≤ 1 := by
      intro iid
      rw [hrows iid]
      by_cases hii : iid = c.itemId
      · rw [if_pos hii]; simp
      · rw [if_neg hii]; exact huniq iid
    obtain ⟨ihs, ihlen, ihqty⟩ := ih _ oid ⟨o2, ho2⟩ hitems' hmenus' huniq'
    refine ⟨ihs, ?_, ?_⟩
    · intro iid
      rw [ihlen iid, hrows iid]
      by_cases hii : iid = c.itemId
      · have hc : (c.itemId == iid) = true := by simp [hii]
        rw [if_pos hii]
        by_cases hany : rest.any (fun x => x.itemId == iid) = true
        · simp [List.any_cons, hc, hany]
        · have hany2 : rest.any (fun x => x.itemId == iid) = false := by
            simpa using hany
          simp [List.any_cons, hc, hany2]
      · have hc : (c.itemId == iid) = false := by simp; omega
        rw [if_neg hii]
        simp [List.any_cons, hc]
    · intro iid
      have hstep_q : qtyFor (add_order_item db (some oid) c.tableId c.menuId c.itemId
          true (some c.qty)).db.orderItems oid iid
          = qtyFor db.orderItems oid iid + (if iid = c.itemId then c.qty else 0) := by
        show ((rowsFor _ oid iid).map _).sum = _
        rw [hrows iid]
        by_cases hii : iid = c.itemId
        · rw [if_pos hii, if_pos hii, hii]
          show (qtyFor db.orderItems oid c.itemId + c.qty) + 0 = _
          omega
        · rw [if_neg hii, if_neg hii]
          show qtyFor db.orderItems oid iid = _
          omega
      rw [ihqty iid, hstep_q]
      by_cases hii : iid = c.itemId
      · have hc : (c.itemId == iid) = true := by simp [hii]
        rw [if_pos hii, List.filter_cons, if_pos (by simpa using hc)]
        simp only [List.map_cons, List.sum_cons]
        omega
      · have hc : (c.itemId == iid) = false := by simp; omega
        rw [if_neg hii, List.filter_cons, if_neg (by simp [hc])]
        omega

/-- C2: every sequence of valid add_item POSTs on one fresh session yields a
single order, bound to the session, with exactly one Order_Item per distinct
added item, no rows for other items, and each row quantity equal to the sum
of the quantities requested for that item across the calls. -/
theorem C2_adds_merge_one_row_per_item_with_summed_quantity
    (db0 : DB) (c0 : AddCall) (calls : List AddCall)
    (hfresh_o : ∀ o ∈ db0.orders, o.id ≠ db0.nextOrderId)
    (hfresh_r : ∀ r ∈ db0.orderItems, r.orderId ≠ db0.nextOrderId)
    (hitems : ∀ c ∈ c0 :: calls, (findMenuItem db0 c.itemId).isSome)
    (hmenus : ∀ c ∈ c0 :: calls, (findMenu db0 c.menuId).isSome)
    (htable : (findTable db0 c0.tableId).isSome) :
    (applyAdds db0 none (c0 :: calls)).2 = some db0.nextOrderId ∧
    ∀ iid,
      (rowsFor (applyAdds db0 none (c0 :: calls)).1.orderItems db0.nextOrderId iid).length
        = (if (c0 :: calls).any (fun c => c.itemId == iid) then 1 else 0) ∧
      qtyFor (applyAdds db0 none (c0 :: calls)).1.orderItems db0.nextOrderId iid
        = (((c0 :: calls).filter (fun c => c.itemId == iid)).map (fun c => c.qty)).sum := by
  obtain ⟨it, hit⟩ := Option.isSome_iff_exists.mp (hitems c0 (List.mem_cons_self c0 calls))
  obtain ⟨mn, hmn⟩ := Option.isSome_iff_exists.mp (hmenus c0 (List.mem_cons_self c0 calls))
  obtain ⟨tb, htb⟩ := Option.isSome_iff_exists.mp htable
  obtain ⟨hsess, hres, hmi, hms, ⟨o2, ho2⟩, hrows⟩ :=
    add_create db0 c0.tableId c0.menuId c0.itemId c0.qty it mn tb hit hmn htb
      hfresh_o hfresh_r
  have happ : applyAdds db0 none (c0 :: calls)
      = applyAdds (add_order_item db0 none c0.tableId c0.menuId c0.itemId
          true (some c0.qty)).db
        (add_order_item db0 none c0.tableId c0.menuId c0.itemId
          true (some c0.qty)).sessionOrderId calls := rfl
  rw [happ, hsess]
  have hitems' : ∀ x ∈ calls,
      (findMenuItem (add_order_item db0 none c0.tableId c0.menuId c0.itemId
        true (some c0.qty)).db x.itemId).isSome := by
    intro x hx
    have := hitems x (List.mem_cons_of_mem _ hx)
    simpa [findMenuItem, hmi] using this
  have hmenus' : ∀ x ∈ calls,
      (findMenu (add_order_item db0 none c0.tableId c0.menuId c0.itemId
        true (some c0.qty)).db x.menuId).isSome := by
    intro x hx
    have := hmenus x (List.mem_cons_of_mem _ hx)
    simpa [findMenu, hms] using this
  have huniq' : ∀ iid,
      (rowsFor (add_order_item db0 none c0.tableId c0.menuId c0.itemId
        true (some c0.qty)).db.orderItems db0.nextOrderId iid).length ≤ 1 := by
    intro iid
    rw [hrows iid]
    by_cases hii : iid = c0.itemId
    · rw [if_pos hii]; simp
    · rw [if_neg hii]; simp
  obtain ⟨ihs, ihlen, ihqty⟩ :=
    applyAdds_props calls _ db0.nextOrderId ⟨o2, ho2⟩ hitems' hmenus' huniq'
  refine ⟨ihs, ?_⟩
  intro iid
  constructor
  · rw [ihlen iid, hrows iid]
    by_cases hii : iid = c0.itemId
    · have hc : (c0.itemId == iid) = true := by simp [hii]
      rw [if_pos hii]
      by_cases hany : calls.any (fun x => x.itemId == iid) = true
      · simp [List.any_cons, hc, hany]
      · have hany2 : calls.any (fun x => x.itemId == iid) = false := by
          simpa using hany
        simp [List.any_cons, hc, hany2]
    · have hc : (c0.itemId == iid) = false := by simp; omega
      rw [if_neg hii]
      simp [List.any_cons, hc]
  · have hstep_q : qtyFor (add_order_item db0 none c0.tableId c0.menuId c0.itemId
        true (some c0.qty)).db.orderItems db0.nextOrderId iid
        = (if iid = c0.itemId then c0.qty else 0) := by
      show ((rowsFor _ db0.nextOrderId iid).map _).sum = _
      rw [hrows iid]
      by_cases hii : iid = c0.itemId
      · rw [if_pos hii, if_pos hii]
        show c0.qty + 0 = _
        omega
      · rw [if_neg hii, if_neg hii]
        simp
    rw [ihqty iid, hstep_q]
    by_cases hii : iid = c0.itemId
    · have hc : (c0.itemId == iid) = true := by simp [hii]
      rw [if_pos hii, List.filter_cons, if_pos (by simpa using hc)]
      simp only [List.map_cons, List.sum_cons]
    · have hc : (c0.itemId == iid) = false := by simp; omega
      rw [if_neg hii, List.filter_cons, if_neg (by simp [hc])]
      omega

/-- C1 fails on the code: the merge branch of add_order_item adds the
post-increment quantity times the unit price, so after adding item 1 (price
500) with quantity 2 and again with quantity 1 the stored running total is
2500 cents while the sum over the line items of unit price times quantity is
1500 cents; the claimed equality of the running total with that sum is
violated, exactly on the scenario of spec section 8 (15.00 expected). -/
theorem C1_running_total_diverges_from_line_sum :
    (findOrder addC1b.db 1).map (fun o => o.totalPrice) = some 2500 ∧
    lineSum addC1b.db 1 = 1500 ∧
    qtyFor addC1b.db.orderItems 1 1 = 3 := by decide

/-- C3: view_cart on a session with no bound order crashes with an unhandled
exception for every request method and every store, because the local order
variable is referenced on every path but never assigned; no orderly
NoActiveOrder failure is produced (the store is at least left unchanged). -/
theorem C3_view_cart_without_order_crashes (db : DB) (t r m : Nat) (p : Bool) :
    (view_cart db none t r m p).result = .crash ∧
    (view_cart db none t r m p).db = db := by
  exact ⟨rfl, rfl⟩

/-- C6 fails on the code: add_order_item has no guard on Customer_Submitted
or Completed_Status, so adding item 1 with quantity 1 to the already
SUBMITTED order of dbC6 succeeds (redirect), raises the line-item quantity
from 1 to 2 and the running total from 500 to 1500 cents; the order is still
mutable after submission. -/
theorem C6_submitted_order_still_mutable :
    (findOrder dbC6 1).map (fun o => o.customerSubmitted) = some true ∧
    addC6.result = .redirect ∧
    qtyFor addC6.db.orderItems 1 1 = 2 ∧
    (findOrder addC6.db 1).map (fun o => o.totalPrice) = some 1500 := by decide

/-- C4 counterexample: in dbC4, order 2 is still OPEN (not submitted), yet
the owner completion POST naming it redirects successfully and marks it
completed instead of failing with InvalidTransition and leaving the state
unchanged. -/
theorem C4_open_order_completes_without_error :
    (findOrder dbC4 2).map (fun o => (o.customerSubmitted, o.completedStatus))
      = some (false, false) ∧
    (view_order dbC4 1 2 true).result = .redirect ∧
    (findOrder (view_order dbC4 1 2 true).db 2).map (fun o => o.completedStatus)
      = some true := by decide

/-- C5 counterexample: a concrete operation sequence from a catalog-only
store reaches a state violating completed implies submitted: customer A
creates and submits order 1, customer B creates the open order 2, and the
owner completion POST naming order 2 marks it completed while it was never
submitted. -/
theorem C5_completed_without_submitted_reachable :
    dbC5.orders = [] ∧
    addC5a.result = .redirect ∧ subC5.result = .redirect ∧
    addC5b.result = .redirect ∧ compC5.result = .redirect ∧
    (findOrder compC5.db 2).map
        (fun o => (o.customerSubmitted, o.completedStatus)) = some (false, true) ∧
    compC5.db.orders.any
        (fun o => o.completedStatus && !o.customerSubmitted) = true := by decide

/-- C9 counterexample: the Quantity field of OrderItemForm is a plain
IntegerField, so the non-positive quantity -1 passes validation: the add on
the bound order of dbC9 redirects successfully, creates a line item with
quantity -1 and drives the running total to -500 cents instead of failing
with InvalidQuantity and leaving the order unchanged. -/
theorem C9_negative_quantity_accepted :
    addC9.result = .redirect ∧
    qtyFor addC9.db.orderItems 1 1 = -1 ∧
    (findOrder addC9.db 1).map (fun o => o.totalPrice) = some (-500) := by decide


/-- C2 witness: the merging theorem applied to the concrete store dbC2w and
the calls item 1 quantity 2, item 2 quantity 1, item 1 quantity 1: the
session is bound to order 1, item 1 ends with one row of quantity 3, item 2
with one row of quantity 1, and item 3 with no row. -/
theorem C2_adds_merge_one_row_per_item_with_summed_quantity_witness :
    (findTable dbC2w 1).isSome = true ∧
    (applyAdds dbC2w none (c0C2w :: callsC2w)).2 = some 1 ∧
    (rowsFor (applyAdds dbC2w none (c0C2w :: callsC2w)).1.orderItems 1 1).length = 1 ∧
    qtyFor (applyAdds dbC2w none (c0C2w :: callsC2w)).1.orderItems 1 1 = 3 ∧
    (rowsFor (applyAdds dbC2w none (c0C2w :: callsC2w)).1.orderItems 1 2).length = 1 ∧
    qtyFor (applyAdds dbC2w none (c0C2w :: callsC2w)).1.orderItems 1 2 = 1 ∧
    (rowsFor (applyAdds dbC2w none (c0C2w :: callsC2w)).1.orderItems 1 3).length = 0 := by
  have h := C2_adds_merge_one_row_per_item_with_summed_quantity dbC2w c0C2w callsC2w
    (by decide) (by decide) (by decide) (by decide) (by decide)
  refine ⟨by decide, h.1.trans (by decide), ?_, ?_, ?_, ?_, ?_⟩
  · exact ((h.2 1).1).trans (by decide)
  · exact ((h.2 1).2).trans (by decide)
  · exact ((h.2 2).1).trans (by decide)
  · exact ((h.2 2).2).trans (by decide)
  · exact ((h.2 3).1).trans (by decide)

/-- Technical: writing back a row equal to the stored one is the identity. -/
theorem map_writeBack_self (l : List Order) (o : Order)
    (huniq : ∀ x ∈ l, x.id = o.id → x = o) :
    l.map (fun x => if x.id == o.id then o else x) = l := by
  have hcong : ∀ x ∈ l, (if x.id == o.id then o else x) = x := by
    intro x hx
    by_cases h : (x.id == o.id) = true
    · rw [if_pos h]
      exact (huniq x hx (by simpa using h)).symm
    · rw [if_neg h]
  simpa using List.map_congr_left hcong

/-- C7: submit is idempotent: the cart POST for a session whose bound order
is already SUBMITTED redirects with no error and leaves the store unchanged,
so submit followed by submit again leaves the state SUBMITTED. -/
theorem C7_submit_idempotent (db : DB) (oid t r m : Nat) (o : Order)
    (hfind : findOrder db oid = some o)
    (hsub : o.customerSubmitted = true)
    (huniq : ∀ x ∈ db.orders, x.id = o.id → x = o)
    (hlines : (cartLines db oid).isSome) :
    (view_cart db (some oid) t r m true).result = .redirect ∧
    (view_cart db (some oid) t r m true).db = db := by
  obtain ⟨ls, hls⟩ := Option.isSome_iff_exists.mp hlines
  unfold view_cart
  dsimp only
  rw [hfind, hls]
  refine ⟨rfl, ?_⟩
  show saveOrder db { o with customerSubmitted := true } = db
  have ho : ({ o with customerSubmitted := true } : Order) = o := by
    cases o
    simp_all
  rw [ho]
  show { db with orders := db.orders.map _ } = db
  rw [map_writeBack_self db.orders o huniq]

/-- C7 witness: re-submitting the already submitted order 1 of dbC7w changes
nothing and redirects. -/
theorem C7_submit_idempotent_witness :
    (findOrder dbC7w 1).map (fun o => o.customerSubmitted) = some true ∧
    (view_cart dbC7w (some 1) 1 1 1 true).result = .redirect ∧
    (view_cart dbC7w (some 1) 1 1 1 true).db = dbC7w := by
  have h := C7_submit_idempotent dbC7w 1 1 1 1 ⟨1, some 1, 1, 1, false, true, 500⟩
    (by decide) (by decide) (by decide) (by decide)
  exact ⟨by decide, h.1, h.2⟩

/-- C8: the pending queryset of view_order holds exactly the orders of the
given restaurants that are submitted and not completed, and on a store whose
orders sit in creation order (as the auto-increment store does) the returned
list is again in creation order, earliest first. -/
theorem C8_pending_exactly_submitted_incomplete_in_creation_order
    (db : DB) (rs : List Nat)
    (hsorted : db.orders.Pairwise (fun a b => a.createdAt ≤ b.createdAt)) :
    (∀ o, o ∈ pending_orders db rs ↔
        o ∈ db.orders ∧ o.restaurantId ∈ rs ∧
        o.customerSubmitted = true ∧ o.completedStatus = false) ∧
    (pending_orders db rs).Pairwise (fun a b => a.createdAt ≤ b.createdAt) := by
  constructor
  · intro o
    unfold pending_orders
    rw [List.mem_filter]
    constructor
    · rintro ⟨hmem, hpred⟩
      refine ⟨hmem, ?_, ?_, ?_⟩ <;> simp_all
    · rintro ⟨hmem, h1, h2, h3⟩
      exact ⟨hmem, by simp_all⟩
  · exact hsorted.sublist (List.filter_sublist _)

/-- C8 witness: on dbC8w with restaurants [1], only the submitted incomplete
order 1 is pending, and the pending list is sorted by creation time. -/
theorem C8_pending_witness :
    dbC8w.orders.Pairwise (fun a b => a.createdAt ≤ b.createdAt) ∧
    (pending_orders dbC8w [1]).Pairwise (fun a b => a.createdAt ≤ b.createdAt) :=
  ⟨by decide,
   (C8_pending_exactly_submitted_incomplete_in_creation_order dbC8w [1] (by decide)).2⟩

/-- Technical: the completion POST of view_order with an explicit order id:
whenever the pending list of the owner is nonempty and the id resolves to an
order whose line items resolve, the named order is written back completed and
the view redirects. -/
theorem view_order_post_explicit (db : DB) (w oid : Nat) (owner : Owner)
    (o p : Order) (ps : List Order)
    (hw : findOwner db w = some owner)
    (hpend : pending_orders db owner.restaurants = p :: ps)
    (hoid : oid ≠ 0)
    (hfind : findOrder db oid = some o)
    (hlines : (cartLines db oid).isSome) :
    (view_order db w oid true).result = .redirect ∧
    (view_order db w oid true).db = saveOrder db { o with completedStatus := true } ∧
    findOrder (view_order db w oid true).db oid
      = some { o with completedStatus := true } := by
  have hid : o.id = oid := by simpa using List.find?_some hfind
  obtain ⟨ls, hls⟩ := Option.isSome_iff_exists.mp hlines
  have h0 : (oid == 0) = false := by simpa using hoid
  unfold view_order
  rw [hw]
  dsimp only
  rw [hpend]
  dsimp only
  simp only [h0, Bool.false_eq_true, if_false]
  rw [hfind]
  dsimp only
  rw [hid, hls]
  refine ⟨rfl, rfl, ?_⟩
  show ((saveOrder db _).orders).find? _ = _
  exact find?_writeBack db.orders oid o _ hfind (by simpa using hid)

/-- C4 amended: owner completion checks no state: when the pending list of
the owner is nonempty and the explicit order id resolves, the POST always
redirects (InvalidTransition does not exist) and marks the named order
completed whatever its prior state was, and re-completing an already
completed order leaves the store unchanged, so only one completion takes
effect. -/
theorem C4_amended_complete_unconditional_and_idempotent
    (db : DB) (w oid : Nat) (owner : Owner) (o p : Order) (ps : List Order)
    (hw : findOwner db w = some owner)
    (hpend : pending_orders db owner.restaurants = p :: ps)
    (hoid : oid ≠ 0)
    (hfind : findOrder db oid = some o)
    (hlines : (cartLines db oid).isSome)
    (huniq : ∀ x ∈ db.orders, x.id = o.id → x = o) :
    (view_order db w oid true).result = .redirect ∧
    findOrder (view_order db w oid true).db oid
      = some { o with completedStatus := true } ∧
    (o.completedStatus = true → (view_order db w oid true).db = db) := by
  obtain ⟨h1, h2, h3⟩ :=
    view_order_post_explicit db w oid owner o p ps hw hpend hoid hfind hlines
  refine ⟨h1, h3, ?_⟩
  intro hc
  rw [h2]
  have ho : ({ o with completedStatus := true } : Order) = o := by
    cases o
    simp_all
  rw [ho]
  show { db with orders := db.orders.map _ } = db
  rw [map_writeBack_self db.orders o huniq]

/-- C4 amended witness: in dbC4w, order 2 is already completed; the explicit
completion POST redirects, keeps order 2 completed and leaves the store
unchanged. -/
theorem C4_amended_complete_unconditional_and_idempotent_witness :
    (findOrder dbC4w 2).map (fun o => o.completedStatus) = some true ∧
    (view_order dbC4w 1 2 true).result = .redirect ∧
    (view_order dbC4w 1 2 true).db = dbC4w := by
  have h := C4_amended_complete_unconditional_and_idempotent dbC4w 1 2 ⟨1, [1]⟩
    ⟨2, some 1, 1, 2, true, true, 700⟩ ⟨1, some 1, 1, 1, false, true, 500⟩ []
    (by decide) (by decide) (by decide) (by decide) (by decide) (by decide)
  exact ⟨by decide, h.1, h.2.2 (by decide)⟩

/-- C10: the owner completion POST with an explicit order id never checks
that the named order belongs to a restaurant of the caller: for every owner
with a nonempty pending list, every existing order in the store, of any
restaurant, is marked completed by the POST naming its id. -/
theorem C10_explicit_complete_skips_ownership_check
    (db : DB) (w oid : Nat) (owner : Owner) (o p : Order) (ps : List Order)
    (hw : findOwner db w = some owner)
    (hpend : pending_orders db owner.restaurants = p :: ps)
    (hoid : oid ≠ 0)
    (hfind : findOrder db oid = some o)
    (hlines : (cartLines db oid).isSome) :
    (view_order db w oid true).result = .redirect ∧
    findOrder (view_order db w oid true).db oid
      = some { o with completedStatus := true } := by
  obtain ⟨h1, _, h3⟩ :=
    view_order_post_explicit db w oid owner o p ps hw hpend hoid hfind hlines
  exact ⟨h1, h3⟩

/-- C10 witness: owner 1 of dbC10w owns only restaurant 1, yet the POST
naming order 3 of the foreign restaurant 2 completes it. -/
theorem C10_explicit_complete_skips_ownership_check_witness :
    (findOrder dbC10w 3).map (fun o => (o.restaurantId, o.completedStatus))
      = some (2, false) ∧
    (findOwner dbC10w 1).map (fun w => w.restaurants) = some [1] ∧
    (view_order dbC10w 1 3 true).result = .redirect ∧
    findOrder (view_order dbC10w 1 3 true).db 3
      = some ⟨3, some 2, 2, 2, true, true, 900⟩ := by
  have h := C10_explicit_complete_skips_ownership_check dbC10w 1 3 ⟨1, [1]⟩
    ⟨3, some 2, 2, 2, false, true, 900⟩ ⟨1, some 1, 1, 1, false, true, 500⟩ []
    (by decide) (by decide) (by decide) (by decide) (by decide)
  exact ⟨by decide, by decide, h.1, h.2⟩

/-- Technical: a write-back whose row respects the invariant preserves it. -/
theorem inv_saveOrder (db : DB) (o : Order)
    (hinv : CompletedImpliesSubmitted db)
    (ho : o.completedStatus = true → o.customerSubmitted = true) :
    CompletedImpliesSubmitted (saveOrder db o) := by
  intro x hx
  simp only [saveOrder] at hx
  rw [List.mem_map] at hx
  obtain ⟨a, ha, rfl⟩ := hx
  by_cases h : (a.id == o.id) = true
  · rw [if_pos h]
    exact ho
  · rw [if_neg h]
    exact hinv a ha


/-- C9 amended, the half that holds: a non-integer quantity fails the form
validation of OrderItemForm, the form is re-rendered and the store, hence the
line items and the running total of the bound order, is unchanged. -/
theorem C9_amended_non_integer_quantity_rejected_without_mutation
    (db : DB) (oid t m i : Nat) (o : Order) (item : MenuItem) (menu : Menu)
    (hfind : findOrder db oid = some o)
    (hitem : findMenuItem db i = some item)
    (hmenu : findMenu db m = some menu) :
    (add_order_item db (some oid) t m i true none).db = db ∧
    (add_order_item db (some oid) t m i true none).result = .render := by
  unfold add_order_item
  simp only [hitem, hmenu, Option.map_some']
  rw [hfind]
  simp only [Option.map_some']
  exact ⟨rfl, rfl⟩

/-- C9 amended witness: a non-integer quantity posted for item 1 of dbC9w
re-renders the form and leaves the store untouched. -/
theorem C9_amended_non_integer_quantity_rejected_without_mutation_witness :
    (add_order_item dbC9w (some 1) 1 1 1 true none).db = dbC9w ∧
    (add_order_item dbC9w (some 1) 1 1 1 true none).result = .render :=
  C9_amended_non_integer_quantity_rejected_without_mutation dbC9w 1 1 1 1
    ⟨1, some 1, 1, 1, false, false, 0⟩ ⟨1, "A", 500⟩ ⟨1, 1⟩
    (by decide) (by decide) (by decide)

/-- C5 amended: completed implies submitted is preserved by add_item, by
submit, and by the owner completion POST on the default pending-list path
(order_id 0), on any store with unique order ids; the explicit-order-id
completion path is exactly what can break it. -/
theorem C5_amended_invariant_preserved_except_explicit_complete (db : DB)
    (hinv : CompletedImpliesSubmitted db)
    (huniq : ∀ a ∈ db.orders, ∀ b ∈ db.orders, a.id = b.id → a = b) :
    (∀ s t m i p q, CompletedImpliesSubmitted (add_order_item db s t m i p q).db) ∧
    (∀ s t r m p, CompletedImpliesSubmitted (view_cart db s t r m p).db) ∧
    (∀ w, CompletedImpliesSubmitted (view_order db w 0 true).db) := by
  refine ⟨?_, ?_, ?_⟩
  · intro s t m i p q
    unfold add_order_item
    cases hit : findMenuItem db i with
    | none => exact hinv
    | some item =>
      cases hmn : findMenu db m with
      | none => exact hinv
      | some menu =>
        cases s with
        | none =>
          dsimp only
          cases htb : findTable db t with
          | none => exact hinv
          | some tb =>
            simp only [Option.map_some']
            have hinv1 : CompletedImpliesSubmitted { db with orders := db.orders ++ [⟨db.nextOrderId, some tb.id, menu.restaurantId, db.nextOrderId, false, false, 0⟩], nextOrderId := db.nextOrderId + 1 } := by
              intro x hx
              rcases List.mem_append.mp hx with hx | hx
              · exact hinv x hx
              · simp only [List.mem_singleton] at hx
                subst hx
                intro hc
                cases hc
            cases p with
            | false => exact hinv1
            | true =>
              cases q with
              | none => exact hinv1
              | some qv =>
                dsimp only
                cases hf : findOrderItem { db with orders := db.orders ++ [⟨db.nextOrderId, some tb.id, menu.restaurantId, db.nextOrderId, false, false, 0⟩], nextOrderId := db.nextOrderId + 1 } db.nextOrderId item.id with
                | some existed =>
                  refine inv_saveOrder _ _ (fun x hx => hinv1 x hx) ?_
                  intro hc
                  simp at hc
                | none =>
                  refine inv_saveOrder _ _ (fun x hx => hinv1 x hx) ?_
                  intro hc
                  simp at hc
        | some oid =>
          dsimp only
          cases ho : findOrder db oid with
          | none => exact hinv
          | some o =>
            simp only [Option.map_some']
            have homem : o ∈ db.orders := List.mem_of_find?_eq_some ho
            have hoimp : o.completedStatus = true → o.customerSubmitted = true :=
              hinv o homem
            have hid : o.id = oid := by simpa using List.find?_some ho
            cases p with
            | false => exact hinv
            | true =>
              cases q with
              | none => exact hinv
              | some qv =>
                dsimp only
                rw [hid]
                cases hf : findOrderItem db oid item.id with
                | some existed =>
                  refine inv_saveOrder _ _ (fun x hx => hinv x hx) ?_
                  exact hoimp
                | none =>
                  refine inv_saveOrder _ _ (fun x hx => hinv x hx) ?_
                  exact hoimp
  · intro s t r m p
    unfold view_cart
    cases s with
    | none => exact hinv
    | some oid =>
      dsimp only
      cases ho : findOrder db oid with
      | none => exact hinv
      | some o =>
        dsimp only
        cases hcl : cartLines db oid with
        | none => exact hinv
        | some ls =>
          dsimp only
          cases p with
          | true =>
            exact inv_saveOrder _ _ hinv (fun _ => rfl)
          | false =>
            by_cases hm : (m == 0) = true
            · simp only [hm, if_true]
              by_cases hr : db.restaurants.contains r = true
              · simp only [hr, if_true]
                cases db.menus.filter (fun mn => mn.restaurantId == r) with
                | nil => exact hinv
                | cons a l => exact hinv
              · simp only [hr]
                exact hinv
            · simp only [hm]
              exact hinv
  · intro w
    unfold view_order
    cases hw : findOwner db w with
    | none => exact hinv
    | some owner =>
      dsimp only
      cases hpend : pending_orders db owner.restaurants with
      | nil => exact hinv
      | cons first rest =>
        dsimp only
        have hfmem : first ∈ db.orders ∧ first.customerSubmitted = true := by
          have hmem : first ∈ pending_orders db owner.restaurants := by
            rw [hpend]
            exact List.mem_cons_self _ _
          unfold pending_orders at hmem
          rw [List.mem_filter] at hmem
          refine ⟨hmem.1, ?_⟩
          have := hmem.2
          simp only [Bool.and_eq_true] at this
          exact this.1.2
        rw [show (if ((0 : Nat) == 0) = true then first.id else 0) = first.id from rfl]
        cases ho : findOrder db first.id with
        | none => exact hinv
        | some o =>
          dsimp only
          have hoid : o.id = first.id := by simpa using List.find?_some ho
          have homem : o ∈ db.orders := List.mem_of_find?_eq_some ho
          have hofirst : o = first := huniq o homem first hfmem.1 hoid
          cases hcl : cartLines db o.id with
          | none => exact hinv
          | some ls =>
            dsimp only
            refine inv_saveOrder _ _ hinv (fun _ => ?_)
            show o.customerSubmitted = true
            rw [hofirst]
            exact hfmem.2

/-- C5 amended witness: on the store dbC5w, which satisfies the invariant,
the owner completion POST on the default pending path preserves completed
implies submitted. -/
theorem C5_amended_invariant_preserved_witness :
    CompletedImpliesSubmitted dbC5w ∧
    CompletedImpliesSubmitted (view_order dbC5w 1 0 true).db ∧
    CompletedImpliesSubmitted (add_order_item dbC5w none 1 1 1 true (some 2)).db := by
  have h := C5_amended_invariant_preserved_except_explicit_complete dbC5w
    (by unfold CompletedImpliesSubmitted; decide) (by decide)
  exact ⟨by unfold CompletedImpliesSubmitted; decide, h.2.2 1, h.1 none 1 1 1 true (some 2)⟩

end TableTap
